import Mathlib

/-!
Verification of the generated register-define header `rtl/ecc/ECC.h` of the
`pulp-platform/hci` repository.  The header is pure data: an include guard,
an `extern "C"` wrapper for C++ translation units, and five object-like
macros (one register-width parameter and four register byte offsets for the
`HCI_ECC_MANAGER` block).  We embed both the data model (register block with
named registers and offsets) and the preprocessor-level behaviour of the
header (macro definition with an include guard, success/failure of
redefinition) and prove the stated properties.
-/

/-- State of a C/C++ translation unit as seen by the preprocessor: the
object-like macros defined so far (a macro may have no replacement value,
as the include guard does), whether the unit is compiled as C++
(`__cplusplus` defined), and the runtime code emitted so far. -/
structure PPState where
  macros : List (String × Option Nat)
  cplusplus : Bool
  runtime : List String
deriving Repr, DecidableEq

/-- Semantics of a `#define name value` directive: defining a fresh macro
appends it to the table; re-defining an existing macro with the identical
replacement is accepted and is a no-op; re-defining it with a different
replacement is a duplicate-definition error. -/
def defineMacro (st : PPState) (n : String) (v : Option Nat) :
    Except String PPState :=
  match st.macros.lookup n with
  | some v0 =>
      if v0 = v then .ok st
      else .error ("duplicate definition of macro " ++ n)
  | none => .ok { st with macros := st.macros ++ [(n, v)] }

/-- Semantics of including `rtl/ecc/ECC.h` into a translation unit, a direct
transcription of the header: the `#ifndef _HCI_ECC_MANAGER_REG_DEFS_` guard
skips the whole body when the guard macro is already defined; otherwise the
guard macro and the five constants are defined in order.  The
`#ifdef __cplusplus` / `extern "C" {` wrapper encloses no declarations, so it
defines no macro and emits no runtime code in either language mode. -/
def includeECCHeader (st : PPState) : Except String PPState :=
  if (st.macros.lookup "_HCI_ECC_MANAGER_REG_DEFS_").isSome then .ok st
  else do
    let st ← defineMacro st "_HCI_ECC_MANAGER_REG_DEFS_" none
    let st ← defineMacro st "HCI_ECC_MANAGER_PARAM_REG_WIDTH" (some 32)
    let st ← defineMacro st
      "HCI_ECC_MANAGER_DATA_CORRECTABLE_ERRORS_REG_OFFSET" (some 0x0)
    let st ← defineMacro st
      "HCI_ECC_MANAGER_DATA_UNCORRECTABLE_ERRORS_REG_OFFSET" (some 0x4)
    let st ← defineMacro st
      "HCI_ECC_MANAGER_METADATA_CORRECTABLE_ERRORS_REG_OFFSET" (some 0x8)
    let st ← defineMacro st
      "HCI_ECC_MANAGER_METADATA_UNCORRECTABLE_ERRORS_REG_OFFSET" (some 0xc)
    .ok st

/-- A translation unit before any inclusion: no macros defined (beyond the
language-mode flag, which we keep as a field) and no runtime code. -/
def freshTU (cplusplus : Bool) : PPState :=
  { macros := [], cplusplus := cplusplus, runtime := [] }

/-- The macro table a consumer in the given language mode sees after
including the header into a fresh translation unit. -/
def headerView (cplusplus : Bool) : List (String × Option Nat) :=
  match includeECCHeader (freshTU cplusplus) with
  | .ok st => st.macros
  | .error _ => []

/-- One register of a memory-mapped block: its symbolic name and its byte
offset from the block base address. -/
structure RegisterDef where
  name : String
  offset : Nat
deriving Repr, DecidableEq

/-- A memory-mapped register block: its name, the uniform register bit
width, and its registers in declaration order. -/
structure RegisterBlock where
  name : String
  width : Nat
  registers : List RegisterDef
deriving Repr, DecidableEq

/-- The `HCI_ECC_MANAGER` block as defined by `rtl/ecc/ECC.h`: 32-bit
registers counting correctable and uncorrectable ECC errors on the data
and metadata paths of the interconnect. -/
def HCI_ECC_MANAGER : RegisterBlock :=
  { name := "HCI_ECC_MANAGER"
    width := 32
    registers :=
      [ ⟨"DATA_CORRECTABLE_ERRORS", 0x0⟩,
        ⟨"DATA_UNCORRECTABLE_ERRORS", 0x4⟩,
        ⟨"METADATA_CORRECTABLE_ERRORS", 0x8⟩,
        ⟨"METADATA_UNCORRECTABLE_ERRORS", 0xc⟩ ] }

/-- The macro name the header derives for a register's offset constant:
block name, register name and the `_REG_OFFSET` suffix. -/
def offsetMacroName (blk : RegisterBlock) (r : RegisterDef) : String :=
  blk.name ++ "_" ++ r.name ++ "_REG_OFFSET"

/-- The name-to-value table of the constants the header defines: the
register-width parameter followed by one offset constant per register. -/
def hciEccManagerDefines : List (String × Nat) :=
  (HCI_ECC_MANAGER.name ++ "_PARAM_REG_WIDTH", HCI_ECC_MANAGER.width) ::
    HCI_ECC_MANAGER.registers.map
      (fun r => (offsetMacroName HCI_ECC_MANAGER r, r.offset))

/-- Looking a constant name up in the header's table. -/
def lookupConst (n : String) : Option Nat :=
  hciEccManagerDefines.lookup n

/-- Boolean suffix test on strings, used to recognise the `_REG_OFFSET`
constants among the header's defines. -/
def strEndsWith (s post : String) : Bool :=
  List.isPrefixOf post.data.reverse s.data.reverse

/-- The state of a C translation unit right after a first inclusion of the
header: the include guard followed by the five constants. -/
def includedTU : PPState :=
  { macros :=
      ("_HCI_ECC_MANAGER_REG_DEFS_", none) ::
        hciEccManagerDefines.map (fun p => (p.1, some p.2))
    cplusplus := false
    runtime := [] }

/-- A sample C++ translation unit that already defines an unrelated macro
and has already emitted some runtime code before including the header. -/
def sampleTU : PPState :=
  { macros := [("FOO", some 1)], cplusplus := true, runtime := ["foo();"] }

/-- The sample translation unit after including the header: the unrelated
macro is untouched and the header's macros are appended. -/
def sampleTUAfter : PPState :=
  { macros :=
      ("FOO", some 1) :: ("_HCI_ECC_MANAGER_REG_DEFS_", none) ::
        hciEccManagerDefines.map (fun p => (p.1, some p.2))
    cplusplus := true
    runtime := ["foo();"] }

/-- An upstream hardware register specification for one block, the input of
the register-definition generator: block name, uniform register bit width,
and the register names in declaration order. -/
structure HwRegSpec where
  blockName : String
  regWidth : Nat
  regNames : List String
deriving Repr, DecidableEq

/-- An environment a generator run happens in (time stamp, run id), so that
determinism across runs can be stated as independence from it. -/
structure GenEnv where
  timestamp : Nat
  runId : Nat
deriving Repr, DecidableEq

/-- Modelled from the spec: the register-definition code generator is not
part of the repository snapshot (the header only records that it is
generated output).  Per the spec the generator deterministically maps the
upstream hardware register specification to the definition table — one
width parameter and one densely packed, width/8-aligned offset per register
in declaration order — with the output a function of that input alone,
independent of the run environment. -/
def generateRegDefs (s : HwRegSpec) (_e : GenEnv) : List (String × Nat) :=
  (s.blockName ++ "_PARAM_REG_WIDTH", s.regWidth) ::
    s.regNames.enum.map
      (fun p => (s.blockName ++ "_" ++ p.2 ++ "_REG_OFFSET",
        s.regWidth / 8 * p.1))

/-- The upstream specification of the `HCI_ECC_MANAGER` block. -/
def hciHwSpec : HwRegSpec :=
  { blockName := "HCI_ECC_MANAGER"
    regWidth := 32
    regNames :=
      [ "DATA_CORRECTABLE_ERRORS", "DATA_UNCORRECTABLE_ERRORS",
        "METADATA_CORRECTABLE_ERRORS", "METADATA_UNCORRECTABLE_ERRORS" ] }

/-- C1: the `HCI_ECC_MANAGER` block defines exactly one width constant with
value 32 and exactly four register offset constants with values 0x0, 0x4,
0x8 and 0xc, under exactly these names; no fifth offset constant exists in
the block. -/
theorem hci_ecc_table_exact :
    hciEccManagerDefines =
      [ ("HCI_ECC_MANAGER_PARAM_REG_WIDTH", 32),
        ("HCI_ECC_MANAGER_DATA_CORRECTABLE_ERRORS_REG_OFFSET", 0x0),
        ("HCI_ECC_MANAGER_DATA_UNCORRECTABLE_ERRORS_REG_OFFSET", 0x4),
        ("HCI_ECC_MANAGER_METADATA_CORRECTABLE_ERRORS_REG_OFFSET", 0x8),
        ("HCI_ECC_MANAGER_METADATA_UNCORRECTABLE_ERRORS_REG_OFFSET", 0xc) ]
    ∧ (hciEccManagerDefines.filter
        (fun p => strEndsWith p.1 "_REG_OFFSET")).map Prod.fst =
      [ "HCI_ECC_MANAGER_DATA_CORRECTABLE_ERRORS_REG_OFFSET",
        "HCI_ECC_MANAGER_DATA_UNCORRECTABLE_ERRORS_REG_OFFSET",
        "HCI_ECC_MANAGER_METADATA_CORRECTABLE_ERRORS_REG_OFFSET",
        "HCI_ECC_MANAGER_METADATA_UNCORRECTABLE_ERRORS_REG_OFFSET" ] :=
  ⟨rfl, by decide⟩

/-- C2: any two registers of the block with distinct names have distinct
offsets — no two registers alias the same offset. -/
theorem hci_ecc_offsets_unique :
    ∀ r1 ∈ HCI_ECC_MANAGER.registers, ∀ r2 ∈ HCI_ECC_MANAGER.registers,
      r1.name ≠ r2.name → r1.offset ≠ r2.offset := by
  decide

/-- Witness for C2 at the two data-path registers of the block. -/
theorem hci_ecc_offsets_unique_witness :
    RegisterDef.offset ⟨"DATA_CORRECTABLE_ERRORS", 0x0⟩ ≠
      RegisterDef.offset ⟨"DATA_UNCORRECTABLE_ERRORS", 0x4⟩ :=
  hci_ecc_offsets_unique ⟨"DATA_CORRECTABLE_ERRORS", 0x0⟩ (by decide)
    ⟨"DATA_UNCORRECTABLE_ERRORS", 0x4⟩ (by decide) (by decide)

/-- C3: every register's byte offset is a multiple of `width / 8` bytes,
i.e. 4-byte aligned since the block's register width is 32 bits. -/
theorem hci_ecc_offsets_aligned :
    ∀ r ∈ HCI_ECC_MANAGER.registers,
      r.offset % (HCI_ECC_MANAGER.width / 8) = 0 := by
  decide

/-- Witness for C3 at the metadata uncorrectable-error register. -/
theorem hci_ecc_offsets_aligned_witness :
    RegisterDef.offset ⟨"METADATA_UNCORRECTABLE_ERRORS", 0xc⟩ %
      (HCI_ECC_MANAGER.width / 8) = 0 :=
  hci_ecc_offsets_aligned ⟨"METADATA_UNCORRECTABLE_ERRORS", 0xc⟩ (by decide)

/-- C4: the registers are declared in strictly ascending offset order and
the offsets are contiguous from 0: the i-th register in declaration order
has offset `(width / 8) * i = 4 * i`. -/
theorem hci_ecc_offsets_contiguous :
    List.Pairwise (· < ·) (HCI_ECC_MANAGER.registers.map RegisterDef.offset)
    ∧ HCI_ECC_MANAGER.registers.map RegisterDef.offset =
        (List.range HCI_ECC_MANAGER.registers.length).map
          (fun i => HCI_ECC_MANAGER.width / 8 * i) := by
  decide

/-- C10: within each error category the uncorrectable-error counter sits
`width / 8 = 4` bytes above the correctable one, both data-path offsets are
strictly below both metadata-path offsets, and the i-th register in
declaration order has offset `4 * i`. -/
theorem hci_ecc_offset_relations :
    (∀ i : Fin HCI_ECC_MANAGER.registers.length,
      (HCI_ECC_MANAGER.registers.get i).offset = 4 * i.val)
    ∧ lookupConst "HCI_ECC_MANAGER_DATA_UNCORRECTABLE_ERRORS_REG_OFFSET" =
        (lookupConst "HCI_ECC_MANAGER_DATA_CORRECTABLE_ERRORS_REG_OFFSET").map
          (· + HCI_ECC_MANAGER.width / 8)
    ∧ lookupConst "HCI_ECC_MANAGER_METADATA_UNCORRECTABLE_ERRORS_REG_OFFSET" =
        (lookupConst
            "HCI_ECC_MANAGER_METADATA_CORRECTABLE_ERRORS_REG_OFFSET").map
          (· + HCI_ECC_MANAGER.width / 8)
    ∧ ((HCI_ECC_MANAGER.registers.take 2).all fun rd =>
        (HCI_ECC_MANAGER.registers.drop 2).all fun rm =>
          rd.offset < rm.offset) = true := by
  refine ⟨by decide, rfl, rfl, by decide⟩

/-- Helper: a successful association-list lookup is unchanged by appending
further entries on the right. -/
theorem lookup_append_of_isSome {α β : Type} [BEq α] {l1 : List (α × β)}
    (l2 : List (α × β)) {n : α} (h : (l1.lookup n).isSome = true) :
    (l1 ++ l2).lookup n = l1.lookup n := by
  induction l1 with
  | nil => simp [List.lookup] at h
  | cons p t ih =>
    rcases p with ⟨k, v⟩
    cases hk : n == k with
    | true => simp [List.lookup, hk]
    | false =>
      have h2 : (t.lookup n).isSome = true := by
        simpa [List.lookup, hk] using h
      simp [List.lookup, hk, ih h2]

/-- Helper: a failed association-list lookup on the left part of an append
falls through to the right part. -/
theorem lookup_append_of_none {α β : Type} [BEq α] {l1 : List (α × β)}
    (l2 : List (α × β)) {n : α} (h : l1.lookup n = none) :
    (l1 ++ l2).lookup n = l2.lookup n := by
  induction l1 with
  | nil => simp
  | cons p t ih =>
    rcases p with ⟨k, v⟩
    cases hk : n == k with
    | true => simp [List.lookup, hk] at h
    | false =>
      have h2 : t.lookup n = none := by simpa [List.lookup, hk] using h
      simp [List.lookup, hk, ih h2]

/-- Helper: destructing a successful bind in the `Except` monad. -/
theorem exceptBind_ok {α β : Type} {x : Except String α}
    {f : α → Except String β} {b : β} (h : x >>= f = .ok b) :
    ∃ a, x = .ok a ∧ f a = .ok b := by
  cases x with
  | error e => exact absurd h (by simp [Bind.bind, Except.bind])
  | ok a => exact ⟨a, rfl, by simpa [Bind.bind, Except.bind] using h⟩

/-- Helper: a successful `#define` leaves the language mode and the emitted
runtime code untouched, makes the defined macro present, and changes no
binding that was already present. -/
theorem defineMacro_ok_props {st st2 : PPState} {m : String}
    {v : Option Nat} (h : defineMacro st m v = .ok st2) :
    st2.cplusplus = st.cplusplus ∧ st2.runtime = st.runtime
    ∧ (st2.macros.lookup m).isSome = true
    ∧ ∀ n, (st.macros.lookup n).isSome = true →
        st2.macros.lookup n = st.macros.lookup n := by
  unfold defineMacro at h
  split at h
  case h_1 v0 hm =>
    split at h
    case isTrue hv =>
      obtain rfl : st = st2 := by simpa using h
      exact ⟨rfl, rfl, by simp [hm], fun n _ => rfl⟩
    case isFalse hv =>
      exact absurd h (by simp)
  case h_2 hm =>
    obtain rfl : { st with macros := st.macros ++ [(m, v)] } = st2 := by
      simpa using h
    refine ⟨rfl, rfl, ?_, ?_⟩
    · show ((st.macros ++ [(m, v)]).lookup m).isSome = true
      rw [lookup_append_of_none _ hm]
      simp [List.lookup]
    · intro n hn
      exact lookup_append_of_isSome _ hn

/-- Helper: presence of a macro is carried along a lookup-preserving step. -/
theorem lookup_isSome_step {a b : PPState}
    (hp : ∀ n, (a.macros.lookup n).isSome = true →
      b.macros.lookup n = a.macros.lookup n)
    {n : String} (hn : (a.macros.lookup n).isSome = true) :
    (b.macros.lookup n).isSome = true := by
  rw [hp n hn]; exact hn

/-- Helper: a successful inclusion of the header leaves the guard macro
defined, does not touch the language mode or the emitted runtime code, and
preserves every macro binding that was already present. -/
theorem includeECCHeader_ok_props {st st2 : PPState}
    (h : includeECCHeader st = .ok st2) :
    (st2.macros.lookup "_HCI_ECC_MANAGER_REG_DEFS_").isSome = true
    ∧ st2.cplusplus = st.cplusplus ∧ st2.runtime = st.runtime
    ∧ ∀ n, (st.macros.lookup n).isSome = true →
        st2.macros.lookup n = st.macros.lookup n := by
  unfold includeECCHeader at h
  by_cases hg : (st.macros.lookup "_HCI_ECC_MANAGER_REG_DEFS_").isSome = true
  · rw [if_pos hg] at h
    obtain rfl : st = st2 := by simpa using h
    exact ⟨hg, rfl, rfl, fun n _ => rfl⟩
  · rw [if_neg hg] at h
    obtain ⟨s1, h1, h⟩ := exceptBind_ok h
    obtain ⟨s2, h2, h⟩ := exceptBind_ok h
    obtain ⟨s3, h3, h⟩ := exceptBind_ok h
    obtain ⟨s4, h4, h⟩ := exceptBind_ok h
    obtain ⟨s5, h5, h⟩ := exceptBind_ok h
    obtain ⟨s6, h6, h⟩ := exceptBind_ok h
    obtain rfl : s6 = st2 := by simpa using h
    have q1 := defineMacro_ok_props h1
    have q2 := defineMacro_ok_props h2
    have q3 := defineMacro_ok_props h3
    have q4 := defineMacro_ok_props h4
    have q5 := defineMacro_ok_props h5
    have q6 := defineMacro_ok_props h6
    refine ⟨?_, ?_, ?_, ?_⟩
    · exact lookup_isSome_step q6.2.2.2 (lookup_isSome_step q5.2.2.2
        (lookup_isSome_step q4.2.2.2 (lookup_isSome_step q3.2.2.2
          (lookup_isSome_step q2.2.2.2 q1.2.2.1))))
    · exact q6.1.trans (q5.1.trans (q4.1.trans (q3.1.trans
        (q2.1.trans q1.1))))
    · exact q6.2.1.trans (q5.2.1.trans (q4.2.1.trans (q3.2.1.trans
        (q2.2.1.trans q1.2.1))))
    · intro n hn
      have i1 := lookup_isSome_step q1.2.2.2 hn
      have i2 := lookup_isSome_step q2.2.2.2 i1
      have i3 := lookup_isSome_step q3.2.2.2 i2
      have i4 := lookup_isSome_step q4.2.2.2 i3
      have i5 := lookup_isSome_step q5.2.2.2 i4
      rw [q6.2.2.2 n i5, q5.2.2.2 n i4, q4.2.2.2 n i3, q3.2.2.2 n i2,
        q2.2.2.2 n i1, q1.2.2.2 n hn]

/-- C5: including the header twice in one translation unit is idempotent —
whenever a first inclusion succeeds, a second inclusion succeeds as well
(no duplicate-definition error) and adds no new definitions, so the
resulting state equals the state after the single inclusion. -/
theorem include_twice_idempotent (st st2 : PPState)
    (h : includeECCHeader st = .ok st2) :
    includeECCHeader st2 = .ok st2 := by
  have hg := (includeECCHeader_ok_props h).1
  unfold includeECCHeader
  rw [if_pos hg]

/-- Witness for C5: in a fresh C translation unit the first inclusion
yields the full macro table, and the second inclusion leaves it as is. -/
theorem include_twice_idempotent_witness :
    includeECCHeader includedTU = .ok includedTU :=
  include_twice_idempotent (freshTU false) includedTU (by rfl)

/-- C6: the header presents identical constants to C and C++ translation
units — the macro table seen after inclusion in C++ mode equals the one
seen in C mode, namely the include guard plus the five constants. -/
theorem header_same_view_c_and_cpp :
    headerView true = headerView false
    ∧ headerView true =
        ("_HCI_ECC_MANAGER_REG_DEFS_", none) ::
          hciEccManagerDefines.map (fun p => (p.1, some p.2)) :=
  ⟨rfl, rfl⟩

/-- C7: no operation on the header can fail — including it into a fresh
translation unit of either language never returns an error, and every
constant name the header defines looks up to its value, never to a
failure. -/
theorem header_no_error_paths (b : Bool) (p : String × Nat)
    (hp : p ∈ hciEccManagerDefines) :
    (∃ st, includeECCHeader (freshTU b) = .ok st)
    ∧ lookupConst p.1 = some p.2 := by
  constructor
  · cases b
    · exact ⟨includedTU, rfl⟩
    · exact ⟨{ includedTU with cplusplus := true }, rfl⟩
  · revert hp
    revert p
    decide

/-- Witness for C7 at the register-width constant in C++ mode. -/
theorem header_no_error_paths_witness :
    ((∃ st, includeECCHeader (freshTU true) = .ok st)
      ∧ lookupConst "HCI_ECC_MANAGER_PARAM_REG_WIDTH" = some 32) :=
  header_no_error_paths true ("HCI_ECC_MANAGER_PARAM_REG_WIDTH", 32)
    (by decide)

/-- C8: inclusion is side-effect free — a successful inclusion emits no
runtime code, leaves the language mode alone, and changes no macro binding
that existed before, so the mapping from names to values visible before the
inclusion is the same afterwards. -/
theorem include_no_side_effects (st st2 : PPState) (n : String)
    (h : includeECCHeader st = .ok st2)
    (hn : (st.macros.lookup n).isSome = true) :
    st2.runtime = st.runtime ∧ st2.cplusplus = st.cplusplus
    ∧ st2.macros.lookup n = st.macros.lookup n := by
  have hp := includeECCHeader_ok_props h
  exact ⟨hp.2.2.1, hp.2.1, hp.2.2.2 n hn⟩

/-- Witness for C8: a translation unit with a pre-existing macro and
pre-existing runtime code is untouched, apart from gaining the header's
macros. -/
theorem include_no_side_effects_witness :
    sampleTUAfter.runtime = sampleTU.runtime
    ∧ sampleTUAfter.cplusplus = sampleTU.cplusplus
    ∧ sampleTUAfter.macros.lookup "FOO" = sampleTU.macros.lookup "FOO" :=
  include_no_side_effects sampleTU sampleTUAfter "FOO" (by rfl) (by rfl)

/-- C9: generation is deterministic — the generator's output depends only
on the upstream hardware specification, not on the run environment, so two
runs on the same unchanged specification produce identical definition
sets; on the `HCI_ECC_MANAGER` specification every run reproduces exactly
the header's constant table. -/
theorem generator_deterministic :
    (∀ (s : HwRegSpec) (e1 e2 : GenEnv),
      generateRegDefs s e1 = generateRegDefs s e2)
    ∧ ∀ e : GenEnv, generateRegDefs hciHwSpec e = hciEccManagerDefines :=
  ⟨fun _ _ _ => rfl, fun _ => rfl⟩
